import Mathlib

set_option autoImplicit false

/-!
Shallow embedding of the rehearse multi-track player (src/App.tsx and the
application component embedded in src/soundtouchjs.d.ts).

The repository contains several prototype iterations of the same React
application.  The latest iteration (the component that follows the module
declarations in `soundtouchjs.d.ts`) owns the dirty check
(`lastProcessedBpm` / `lastProcessedPitch`), derives `baseBpm` from the
selected song, auto-plays after loading, and stops playback when a mute is
toggled.  An earlier iteration (the first component in `App.tsx`) divides by
the hardcoded constant `BASE_BPM = 95` and has a pure `toggleMute`.

JavaScript numbers are modelled as rationals (`ℚ`), integers sliders as `ℤ`,
and the external collaborators (audio decoding, the SoundTouch offline
render, the audio clock) as explicit oracle functions.  Event handlers are
modelled as atomic state transitions.

A crucial aliasing fact of the source is modelled faithfully: in
`processAllTracks`, `const newTracks = { ...tracks }` is a *shallow* copy,
so each `newTracks[track]` is the very `TrackState` object held by the
current React state, and `newTracks[track].processedBuffer = renderedBuffer`
mutates it in place.  Consequently the per-track buffer installations are
visible immediately, one at a time, and survive a mid-pass failure; the
embedding therefore keeps a single `Tracks` record that the render loop
updates track by track, and a failed pass (a rejected `startRendering`
promise, which propagates as an exception and skips the trailing
`setLastProcessedBpm` / `setIsProcessing(false)` calls) leaves exactly the
tracks already processed in their updated form.
-/

inductive TrackName where
  | bass
  | drums
  | other
  | vocals
deriving DecidableEq

/-- Decoded PCM buffer: channel count, frame count, sample rate, and sample
data (flattened, abstract). -/
structure AudioBuffer where
  numberOfChannels : Nat
  length : Nat
  sampleRate : Nat
  data : List ℚ
deriving DecidableEq

/-- Per-stem state as in the source: original decoded buffer, currently
playable processed buffer, and the mute flag. -/
structure TrackState where
  buffer : Option AudioBuffer
  processedBuffer : Option AudioBuffer
  muted : Bool
deriving DecidableEq

structure Song where
  title : String
  artist : String
  key : String
  tempo : ℚ
deriving DecidableEq

/-- The four-stem record `Record<TrackName, TrackState>`. -/
structure Tracks where
  bass : TrackState
  drums : TrackState
  other : TrackState
  vocals : TrackState
deriving DecidableEq

def Tracks.get (tr : Tracks) : TrackName → TrackState
  | .bass => tr.bass
  | .drums => tr.drums
  | .other => tr.other
  | .vocals => tr.vocals

def Tracks.set (tr : Tracks) : TrackName → TrackState → Tracks
  | .bass, v => { tr with bass := v }
  | .drums, v => { tr with drums := v }
  | .other, v => { tr with other := v }
  | .vocals, v => { tr with vocals := v }

/-- `Object.keys` iteration order of the track record. -/
def stemOrder : List TrackName := [.bass, .drums, .other, .vocals]

/-- One SoundTouch invocation as configured by `processAllTracks`:
`new SoundTouch(originalBuffer.sampleRate)`, `soundTouch.tempo = tempoRatio`,
`soundTouch.pitch = Math.pow(2, pitchSemitones / 12)`.  The two arguments of
`Math.pow` are recorded; `pitchValue` below gives the real value. -/
structure EngineInvocation where
  track : TrackName
  sampleRate : Nat
  tempo : ℚ
  pitchBase : ℚ
  pitchExp : ℚ
deriving DecidableEq

/-- Real value of the recorded `Math.pow` call. -/
noncomputable def EngineInvocation.pitchValue (i : EngineInvocation) : ℝ :=
  (i.pitchBase : ℝ) ^ (i.pitchExp : ℝ)

/-- One `AudioBufferSourceNode` created by `handlePlay`: the buffer it was
given, the routing decision taken at creation time
(`source.connect(muted ? gain : destination)`), the timestamp passed to
`source.start(now)`, the playback session it belongs to, and whether
`source.stop()` has been called on it. -/
structure Handle where
  hid : Nat
  track : TrackName
  buffer : AudioBuffer
  mutedRoute : Bool
  startTime : ℚ
  sessionId : Nat
  stopped : Bool
deriving DecidableEq

/-- The whole component state of the latest prototype.  `handles` is the
set of every source node ever created (with its stop flag), `sources` the
ids held by the React `sources` array, `engineLog` the accumulated list of
SoundTouch invocations, `passCount` the number of `processAllTracks`
invocations, `clockReads` the number of reads of `audioCtx.currentTime`,
and `nextSession` / `nextHid` fresh-name counters. -/
structure AppState where
  tracks : Tracks
  isLoading : Bool
  isProcessing : Bool
  isPlaying : Bool
  baseBpm : ℚ
  bpm : ℚ
  pitchSemitones : ℤ
  lastProcessedBpm : Option ℚ
  lastProcessedPitch : ℤ
  selectedSong : Option Song
  sources : List Nat
  handles : List Handle
  nextSession : Nat
  nextHid : Nat
  clockReads : Nat
  engineLog : List EngineInvocation
  passCount : Nat
deriving DecidableEq

def initialTrack : TrackState :=
  { buffer := none, processedBuffer := none, muted := false }

/-- `const BASE_BPM = 100` of the latest prototype (initial slider state). -/
def BASE_BPM_latest : ℚ := 100

/-- `const BASE_BPM = 95` of the earlier `App.tsx` prototype, used there as
the denominator of the tempo ratio. -/
def BASE_BPM_legacy : ℚ := 95

def initialState : AppState :=
  { tracks := ⟨initialTrack, initialTrack, initialTrack, initialTrack⟩
    isLoading := false
    isProcessing := false
    isPlaying := false
    baseBpm := BASE_BPM_latest
    bpm := BASE_BPM_latest
    pitchSemitones := 0
    lastProcessedBpm := none
    lastProcessedPitch := 0
    selectedSong := none
    sources := []
    handles := []
    nextSession := 0
    nextHid := 0
    clockReads := 0
    engineLog := []
    passCount := 0 }

/-- A render oracle stands for the external SoundTouch-plus-offline-context
render of one stem: `some d` is the sample data produced, `none` a rejected
`startRendering` promise (the exception case). -/
def RenderOracle : Type := TrackName → Option (List ℚ)

/-- The body of the `for` loop of `processAllTracks`, iterated over the
remaining stems.  A stem without a loaded buffer is skipped (`continue`).
For a loaded stem the SoundTouch invocation is recorded and the offline
context is created with the *original* buffer's channel count, length and
sample rate, so the rendered buffer keeps those three fields and only its
sample data comes from the engine.  On a render failure the function stops
right there (the awaited promise rejection aborts the loop), returning the
partially updated tracks, the invocation log so far, and `false`. -/
def processLoop (oracle : RenderOracle) (tempoRatio : ℚ) (ps : ℤ) :
    List TrackName → Tracks → List EngineInvocation →
    Tracks × List EngineInvocation × Bool
  | [], tr, log => (tr, log, true)
  | t :: rest, tr, log =>
    match (tr.get t).buffer with
    | none => processLoop oracle tempoRatio ps rest tr log
    | some ob =>
      let inv : EngineInvocation :=
        { track := t, sampleRate := ob.sampleRate, tempo := tempoRatio
          pitchBase := 2, pitchExp := (ps : ℚ) / 12 }
      match oracle t with
      | none => (tr, log ++ [inv], false)
      | some d =>
        let nb : AudioBuffer :=
          { numberOfChannels := ob.numberOfChannels, length := ob.length
            sampleRate := ob.sampleRate, data := d }
        let cur := tr.get t
        processLoop oracle tempoRatio ps rest
          (tr.set t { cur with processedBuffer := some nb }) (log ++ [inv])

/-- `processAllTracks` of the latest prototype.  `setIsProcessing(true)`,
then the per-stem render loop at `tempoRatio = bpm / baseBpm`; on success
`setTracks`, `setLastProcessedBpm(bpm)`, `setLastProcessedPitch(pitchSemitones)`
and `setIsProcessing(false)`; on failure the exception propagates, so the
trailing setters never run and `isProcessing` stays `true`, while the
per-stem buffer mutations made before the failure remain visible (shallow
copy aliasing).  The second component reports success. -/
def processAllTracks (oracle : RenderOracle) (s : AppState) : AppState × Bool :=
  let s0 := { s with isProcessing := true, passCount := s.passCount + 1 }
  let r := processLoop oracle (s.bpm / s.baseBpm) s.pitchSemitones stemOrder s0.tracks []
  if r.2.2 then
    ({ s0 with tracks := r.1
               engineLog := s0.engineLog ++ r.2.1
               lastProcessedBpm := some s.bpm
               lastProcessedPitch := s.pitchSemitones
               isProcessing := false }, true)
  else
    ({ s0 with tracks := r.1, engineLog := s0.engineLog ++ r.2.1 }, false)

/-- `processAllTracks` of the earlier `App.tsx` prototype: identical loop,
but the tempo ratio divides by the hardcoded `BASE_BPM = 95`, and the
prototype has no `lastProcessedBpm` / `lastProcessedPitch` state to update. -/
def legacyProcessAllTracks (oracle : RenderOracle) (s : AppState) : AppState × Bool :=
  let s0 := { s with isProcessing := true, passCount := s.passCount + 1 }
  let r := processLoop oracle (s.bpm / BASE_BPM_legacy) s.pitchSemitones stemOrder s0.tracks []
  if r.2.2 then
    ({ s0 with tracks := r.1
               engineLog := s0.engineLog ++ r.2.1
               isProcessing := false }, true)
  else
    ({ s0 with tracks := r.1, engineLog := s0.engineLog ++ r.2.1 }, false)

/-- The dirty check of `handlePlayClick`:
`lastProcessedBpm === null || bpm !== lastProcessedBpm || pitchSemitones !== lastProcessedPitch`. -/
def needsProcessing (s : AppState) : Bool :=
  decide (s.lastProcessedBpm = none) ||
  decide (s.lastProcessedBpm ≠ some s.bpm) ||
  decide (s.pitchSemitones ≠ s.lastProcessedPitch)

/-- An audio clock oracle: the value `audioCtx.currentTime` returns at its
n-th read.  Any function is allowed; a coarse or advancing clock is the case
the spec worries about. -/
def Clock : Type := Nat → ℚ

/-- The source-node creation loop of `handlePlay`: for each stem with a
non-null `processedBuffer`, create a source node carrying that buffer, the
mute routing chosen now, and the start timestamp `now`; stems without a
processed buffer are skipped. -/
def mkHandles (s : AppState) (now : ℚ) : List TrackName → Nat → List Handle
  | [], _ => []
  | t :: rest, nid =>
    match (s.tracks.get t).processedBuffer with
    | none => mkHandles s now rest nid
    | some pb =>
      { hid := nid, track := t, buffer := pb
        mutedRoute := (s.tracks.get t).muted
        startTime := now, sessionId := s.nextSession, stopped := false }
      :: mkHandles s now rest (nid + 1)

/-- `handlePlay`: `if (isPlaying) return;` then one single read
`const now = audioCtx.currentTime`, then the per-stem loop starting every
created source at that shared `now`, then `setSources(newSources)` and
`setIsPlaying(true)`. -/
def handlePlay (clock : Clock) (s : AppState) : AppState :=
  if s.isPlaying then s
  else
    let now := clock s.clockReads
    let newHandles := mkHandles s now stemOrder s.nextHid
    { s with handles := s.handles ++ newHandles
             sources := newHandles.map Handle.hid
             isPlaying := true
             nextSession := s.nextSession + 1
             nextHid := s.nextHid + newHandles.length
             clockReads := s.clockReads + 1 }

/-- `handleStop`: `sources.forEach(source => source.stop())`, then
`setSources([])` and `setIsPlaying(false)`. -/
def handleStop (s : AppState) : AppState :=
  { s with handles := s.handles.map fun h =>
             if h.hid ∈ s.sources then { h with stopped := true } else h
           sources := []
           isPlaying := false }

/-- `toggleMute` of the latest prototype: `if (isPlaying) handleStop();`
then flip the stem's `muted` flag. -/
def toggleMute (t : TrackName) (s : AppState) : AppState :=
  let s1 := if s.isPlaying then handleStop s else s
  let cur := s1.tracks.get t
  { s1 with tracks := s1.tracks.set t { cur with muted := !cur.muted } }

/-- `toggleMute` of the earlier `App.tsx` prototype: a pure flag flip with
no effect on playback. -/
def legacyToggleMute (t : TrackName) (s : AppState) : AppState :=
  let cur := s.tracks.get t
  { s with tracks := s.tracks.set t { cur with muted := !cur.muted } }

/-- A decode oracle: the decoded buffer for each stem of the selected song.
Only the successful load path is modelled (a failed fetch or decode throws
and never reaches the code the claims are about). -/
def DecodeOracle : Type := TrackName → AudioBuffer

/-- The successful path of `loadBuffers` of the latest prototype: every
stem's `buffer` and `processedBuffer` are set to the decoded buffer
(initially identical), `setLastProcessedBpm(song.tempo)`,
`setLastProcessedPitch(0)`, `setIsLoading(false)`. -/
def loadBuffers (song : Song) (dec : DecodeOracle) (s : AppState) : AppState :=
  let loaded := fun (t : TrackName) =>
    { buffer := some (dec t), processedBuffer := some (dec t), muted := false : TrackState }
  { s with
    tracks := { bass := loaded .bass, drums := loaded .drums
                other := loaded .other, vocals := loaded .vocals }
    lastProcessedBpm := some song.tempo
    lastProcessedPitch := 0
    isLoading := false }

/-- `loadBuffers` followed by the `setTimeout(() => handlePlay(), 0)`
auto-play workaround at its end. -/
def loadAndAutoplay (song : Song) (dec : DecodeOracle) (clock : Clock)
    (s : AppState) : AppState :=
  handlePlay clock (loadBuffers song dec s)

/-- The dirty-checked render entry of `handlePlayClick`
(`if (needsProcessing) await processAllTracks()`); on a clean state nothing
runs and the pass trivially succeeds. -/
def dirtyGuardedRender (oracle : RenderOracle) (s : AppState) : AppState × Bool :=
  if needsProcessing s then processAllTracks oracle s else (s, true)

/-- `handlePlayClick`: a click while playing is a stop; otherwise the
dirty-checked render runs, and only if it did not throw does `handlePlay`
run (an exception in `processAllTracks` aborts the handler). -/
def handlePlayClick (oracle : RenderOracle) (clock : Clock) (s : AppState) : AppState :=
  if s.isPlaying then handleStop s
  else
    let r := dirtyGuardedRender oracle s
    if r.2 then handlePlay clock r.1 else r.1

/-- Selecting a song: `setSelectedSong(song)`, the two `useEffect`s seed
`bpm` and `baseBpm` from `song.tempo`, then `loadBuffers(song)` with its
auto-play tail. -/
def selectSongStep (song : Song) (dec : DecodeOracle) (clock : Clock)
    (s : AppState) : AppState :=
  loadAndAutoplay song dec clock
    { s with selectedSong := some song, bpm := song.tempo, baseBpm := song.tempo }

/-- The tempo slider: `if (isPlaying) handleStop(); setBpm(v)`. -/
def setBpmSlider (v : ℚ) (s : AppState) : AppState :=
  let s1 := if s.isPlaying then handleStop s else s
  { s1 with bpm := v }

/-- The pitch slider: `if (isPlaying) handleStop(); setPitchSemitones(v)`. -/
def setPitchSlider (v : ℤ) (s : AppState) : AppState :=
  let s1 := if s.isPlaying then handleStop s else s
  { s1 with pitchSemitones := v }

/-- One user-visible event of the latest prototype.  Every interactive
control is disabled while `isProcessing` or `isLoading`, hence the guards.
Handlers are modelled as atomic steps; the oracles stand for the external
collaborators consulted during the step. -/
inductive Step : AppState → AppState → Prop
  | playClick (oracle : RenderOracle) (clock : Clock) (s : AppState) :
      s.isProcessing = false → s.isLoading = false →
      Step s (handlePlayClick oracle clock s)
  | mute (t : TrackName) (s : AppState) :
      s.isProcessing = false → s.isLoading = false →
      Step s (toggleMute t s)
  | select (song : Song) (dec : DecodeOracle) (clock : Clock) (s : AppState) :
      s.isProcessing = false → s.isLoading = false →
      Step s (selectSongStep song dec clock s)
  | bpmSlider (v : ℚ) (s : AppState) :
      s.isProcessing = false → s.isLoading = false →
      Step s (setBpmSlider v s)
  | pitchSlider (v : ℤ) (s : AppState) :
      s.isProcessing = false → s.isLoading = false →
      Step s (setPitchSlider v s)

/-- States reachable from the freshly mounted component. -/
def Reachable (s : AppState) : Prop :=
  Relation.ReflTransGen Step initialState s

/-- No two playback sessions are live at once: any two not-yet-stopped
source nodes belong to the same session. -/
def noTwoSessionsLive (s : AppState) : Prop :=
  ∀ h ∈ s.handles, ∀ h2 ∈ s.handles,
    h.stopped = false → h2.stopped = false → h.sessionId = h2.sessionId

/-- The playback-session invariant of the latest prototype. -/
def SessionInv (s : AppState) : Prop :=
  (s.isPlaying = false → ∀ h ∈ s.handles, h.stopped = true) ∧
  (∀ h ∈ s.handles, h.stopped = false → h.hid ∈ s.sources) ∧
  noTwoSessionsLive s

/-! Spec-side predicates.  Each is a direct transcription of a spec
sentence, used to compare the spec's wording against the embedded code. -/

/-- Spec 4.1: dirty iff the last applied tempo value is unset, or differs
from the requested tempo, or the last applied pitch differs from the
requested pitch. -/
def specDirty (s : AppState) : Prop :=
  s.lastProcessedBpm = none ∨ s.lastProcessedBpm ≠ some s.bpm ∨
    s.lastProcessedPitch ≠ s.pitchSemitones

/-- Spec 4.2 / 8 pass atomicity, as claimed: if the pass fails, no stem's
playable buffer changes and the processing state keeps its pre-pass
values. -/
def specAtomicPass (oracle : RenderOracle) (s : AppState) : Prop :=
  (processAllTracks oracle s).2 = false →
    (∀ t, ((processAllTracks oracle s).1.tracks.get t).processedBuffer =
        (s.tracks.get t).processedBuffer) ∧
    (processAllTracks oracle s).1.lastProcessedBpm = s.lastProcessedBpm ∧
    (processAllTracks oracle s).1.lastProcessedPitch = s.lastProcessedPitch

/-- Spec 8 monotonic duration, as claimed: a rendered stem's frame count is
within one rounding unit of `originalFrames / tempoRatio`, and for a tempo
ratio different from 1 it differs from the original frame count. -/
def specDurationScaling (oracle : RenderOracle) (s : AppState) : Prop :=
  ∀ t ob pb, (s.tracks.get t).buffer = some ob →
    ((processAllTracks oracle s).1.tracks.get t).processedBuffer = some pb →
    ((ob.length : ℚ) / (s.bpm / s.baseBpm) - 1 ≤ (pb.length : ℚ) ∧
     (pb.length : ℚ) ≤ (ob.length : ℚ) / (s.bpm / s.baseBpm) + 1) ∧
    (s.bpm / s.baseBpm ≠ 1 → pb.length ≠ ob.length)

/-- Spec 4.4 / 4.3, as claimed: toggling a mute never itself touches an
active playback session (handles, sources array and playing flag are left
as they were). -/
def specMuteLeavesSession (t : TrackName) (s : AppState) : Prop :=
  (toggleMute t s).handles = s.handles ∧
  (toggleMute t s).sources = s.sources ∧
  (toggleMute t s).isPlaying = s.isPlaying

/-- The claim C9 property for the earlier prototype's render pass: every
engine invocation of the pass uses the selected song's own recorded tempo
as the baseline of the tempo ratio. -/
def specLegacyTempoFromSong (oracle : RenderOracle) (s : AppState) (song : Song) : Prop :=
  s.selectedSong = some song →
    ∀ inv ∈ (legacyProcessAllTracks oracle s).1.engineLog.drop s.engineLog.length,
      inv.tempo = s.bpm / song.tempo

/-- The claim C10 consequence: a successful load followed by its scheduled
auto-play begins a playback session (a fresh session id is consumed). -/
def specLoadStartsSession (song : Song) (dec : DecodeOracle) (clock : Clock)
    (s : AppState) : Prop :=
  (loadAndAutoplay song dec clock s).nextSession = s.nextSession + 1

/-! Concrete data used by witnesses and counterexamples. -/

def bufTiny : AudioBuffer :=
  { numberOfChannels := 1, length := 4, sampleRate := 8, data := [1, 2, 3, 4] }

def bufSmall : AudioBuffer :=
  { numberOfChannels := 2, length := 1000, sampleRate := 44100, data := [0] }

/-- A loaded stem whose playable buffer still equals its original. -/
def demoTrack (b : AudioBuffer) : TrackState :=
  { buffer := some b, processedBuffer := some b, muted := false }

/-- A render oracle that always succeeds. -/
def oracleOk : RenderOracle := fun _ => some [9]

/-- A render oracle that succeeds on the bass stem and fails on every
other stem (in particular on drums, the second stem processed). -/
def oracleBassOnly : RenderOracle := fun t =>
  match t with
  | .bass => some [9]
  | _ => none

/-- The constantly-zero audio clock. -/
def clk0 : Clock := fun _ => 0

/-- An audio clock that advances by one unit per read, making a per-stem
re-read of the current time observable. -/
def clkTick : Clock := fun n => (n : ℚ)

def decTiny : DecodeOracle := fun _ => bufTiny

def songA : Song := { title := "t", artist := "a", key := "C", tempo := 120 }

def songB : Song := { title := "u", artist := "b", key := "D", tempo := 90 }

/-- Dirty state with bass and drums loaded; used for the C1 pass-failure
counterexample. -/
def csC1 : AppState :=
  { initialState with
    tracks := ⟨demoTrack bufTiny, demoTrack bufTiny, initialTrack, initialTrack⟩
    bpm := 120
    lastProcessedBpm := some 100 }

/-- State with one loaded stem of 1000 frames and a requested tempo ratio
of 190/95 = 2; used for the C2 counterexample and witness. -/
def csC2 : AppState :=
  { initialState with
    tracks := ⟨demoTrack bufSmall, initialTrack, initialTrack, initialTrack⟩
    bpm := 190
    baseBpm := 95 }

/-- Dirty, not-playing state with one loaded stem; used by C3 and C6
witnesses. -/
def csC3 : AppState :=
  { initialState with
    tracks := ⟨demoTrack bufTiny, initialTrack, initialTrack, initialTrack⟩
    bpm := 130
    lastProcessedBpm := some 100 }

/-- Not-playing state with two loaded stems; used by the C5 witness. -/
def csC5 : AppState :=
  { initialState with
    tracks := ⟨demoTrack bufTiny, initialTrack, demoTrack bufSmall, initialTrack⟩ }

/-- A source node of a live playback session. -/
def hLive : Handle :=
  { hid := 5, track := .bass, buffer := bufTiny, mutedRoute := false
    startTime := 0, sessionId := 0, stopped := false }

/-- Playing state with one live source node; used by C7 and C10
counterexamples. -/
def csPlaying : AppState :=
  { initialState with
    tracks := ⟨demoTrack bufTiny, initialTrack, initialTrack, initialTrack⟩
    isPlaying := true
    sources := [5]
    handles := [hLive]
    nextSession := 1
    nextHid := 6 }

/-- State of the earlier prototype with a selected song whose recorded
tempo is 120, requested bpm 120; used for the C9 counterexample. -/
def csC9 : AppState :=
  { initialState with
    tracks := ⟨demoTrack bufTiny, initialTrack, initialTrack, initialTrack⟩
    selectedSong := some songA
    bpm := 120
    baseBpm := 120 }

/-- The reachable state used by the C4 witness: one song-selection step
from the initial state, whose auto-play starts a four-stem session. -/
def stAfterSelect : AppState := selectSongStep songB decTiny clk0 initialState

/-- First two source nodes of the session started by `stAfterSelect`. -/
def hSel0 : Handle :=
  { hid := 0, track := .bass, buffer := bufTiny, mutedRoute := false
    startTime := 0, sessionId := 0, stopped := false }

def hSel1 : Handle :=
  { hid := 1, track := .drums, buffer := bufTiny, mutedRoute := false
    startTime := 0, sessionId := 0, stopped := false }

/-- Expected first two source nodes of `handlePlay clkTick csC5`. -/
def hPl0 : Handle :=
  { hid := 0, track := .bass, buffer := bufTiny, mutedRoute := false
    startTime := 0, sessionId := 0, stopped := false }

def hPl1 : Handle :=
  { hid := 1, track := .other, buffer := bufSmall, mutedRoute := false
    startTime := 0, sessionId := 0, stopped := false }

/-- The buffer `processAllTracks oracleOk csC2` installs for the bass stem:
the offline context forces the original channel count, frame count and
sample rate; only the data comes from the engine. -/
def pbC2 : AudioBuffer :=
  { numberOfChannels := 2, length := 1000, sampleRate := 44100, data := [9] }

/-- Latest-prototype state with a selected song of recorded tempo 120,
`baseBpm` seeded from it, and a requested bpm of 150; used by the C9
witness. -/
def csC9W : AppState :=
  { initialState with
    tracks := ⟨demoTrack bufTiny, initialTrack, initialTrack, initialTrack⟩
    selectedSong := some songA
    baseBpm := 120
    bpm := 150 }

/-- The engine invocation `processAllTracks oracleOk csC9W` performs (its
tempo ratio 150/120 and pitch exponent 0/12 written as the code computes
them). -/
def invC9W : EngineInvocation :=
  { track := .bass, sampleRate := 8, tempo := csC9W.bpm / csC9W.baseBpm
    pitchBase := 2, pitchExp := (csC9W.pitchSemitones : ℚ) / 12 }

/-- The engine invocation the earlier prototype's pass performs at `csC9`:
its tempo ratio divides by the hardcoded 95. -/
def invC9L : EngineInvocation :=
  { track := .bass, sampleRate := 8, tempo := csC9.bpm / BASE_BPM_legacy
    pitchBase := 2, pitchExp := (csC9.pitchSemitones : ℚ) / 12 }

/-! Helper lemmas about the track record and the render loop. -/

theorem Tracks.get_set_same (tr : Tracks) (t : TrackName) (v : TrackState) :
    (tr.set t v).get t = v := by
  cases t <;> rfl

theorem Tracks.get_set_ne (tr : Tracks) {t u : TrackName} (v : TrackState)
    (h : u ≠ t) : (tr.set t v).get u = tr.get u := by
  cases t <;> cases u <;> simp_all [Tracks.set, Tracks.get]

theorem processLoop_get_buffer (oracle : RenderOracle) (tmp : ℚ) (ps : ℤ)
    (l : List TrackName) (tr : Tracks) (log : List EngineInvocation) (u : TrackName) :
    ((processLoop oracle tmp ps l tr log).1.get u).buffer = (tr.get u).buffer := by
  induction l generalizing tr log with
  | nil => rfl
  | cons t rest ih =>
    rw [processLoop]
    cases hb : (tr.get t).buffer with
    | none => exact ih tr log
    | some ob =>
      cases ho : oracle t with
      | none => rfl
      | some d =>
        dsimp only
        rw [ih]
        by_cases hu : u = t
        · subst hu
          rw [Tracks.get_set_same]
        · rw [Tracks.get_set_ne _ _ hu]

theorem processLoop_get_muted (oracle : RenderOracle) (tmp : ℚ) (ps : ℤ)
    (l : List TrackName) (tr : Tracks) (log : List EngineInvocation) (u : TrackName) :
    ((processLoop oracle tmp ps l tr log).1.get u).muted = (tr.get u).muted := by
  induction l generalizing tr log with
  | nil => rfl
  | cons t rest ih =>
    rw [processLoop]
    cases hb : (tr.get t).buffer with
    | none => exact ih tr log
    | some ob =>
      cases ho : oracle t with
      | none => rfl
      | some d =>
        dsimp only
        rw [ih]
        by_cases hu : u = t
        · subst hu
          rw [Tracks.get_set_same]
        · rw [Tracks.get_set_ne _ _ hu]

theorem processLoop_not_mem (oracle : RenderOracle) (tmp : ℚ) (ps : ℤ)
    (l : List TrackName) (tr : Tracks) (log : List EngineInvocation) (u : TrackName) :
    u ∉ l → (processLoop oracle tmp ps l tr log).1.get u = tr.get u := by
  induction l generalizing tr log with
  | nil => intro _; rfl
  | cons t rest ih =>
    intro hu
    have hut : u ≠ t := fun h => hu (h ▸ List.mem_cons_self t rest)
    have hur : u ∉ rest := fun h => hu (List.mem_cons_of_mem t h)
    rw [processLoop]
    cases hb : (tr.get t).buffer with
    | none => exact ih tr log hur
    | some ob =>
      cases ho : oracle t with
      | none => rfl
      | some d =>
        dsimp only
        rw [ih _ _ hur, Tracks.get_set_ne _ _ hut]

theorem processLoop_success_of_oracle (oracle : RenderOracle) (tmp : ℚ) (ps : ℤ)
    (l : List TrackName) (tr : Tracks) (log : List EngineInvocation)
    (h : ∀ t, (oracle t).isSome = true) :
    (processLoop oracle tmp ps l tr log).2.2 = true := by
  induction l generalizing tr log with
  | nil => rfl
  | cons t rest ih =>
    rw [processLoop]
    cases hb : (tr.get t).buffer with
    | none => exact ih tr log
    | some ob =>
      cases ho : oracle t with
      | none =>
        have := h t
        rw [ho] at this
        simp at this
      | some d => exact ih _ _

theorem processLoop_dims (oracle : RenderOracle) (tmp : ℚ) (ps : ℤ)
    (l : List TrackName) (tr : Tracks) (log : List EngineInvocation) (u : TrackName) :
    (processLoop oracle tmp ps l tr log).2.2 = true → u ∈ l →
    ∀ ob, (tr.get u).buffer = some ob →
    ((processLoop oracle tmp ps l tr log).1.get u).processedBuffer.map AudioBuffer.length
        = some ob.length ∧
    ((processLoop oracle tmp ps l tr log).1.get u).processedBuffer.map AudioBuffer.numberOfChannels
        = some ob.numberOfChannels ∧
    ((processLoop oracle tmp ps l tr log).1.get u).processedBuffer.map AudioBuffer.sampleRate
        = some ob.sampleRate := by
  induction l generalizing tr log with
  | nil =>
    intro _ hu
    cases hu
  | cons t rest ih =>
    rw [processLoop]
    cases hbt : (tr.get t).buffer with
    | none =>
      intro hs hu ob hb
      have hut : u ≠ t := by
        intro h
        rw [h, hbt] at hb
        cases hb
      have hur : u ∈ rest := by
        cases List.mem_cons.mp hu with
        | inl h => exact absurd h hut
        | inr h => exact h
      exact ih tr log hs hur ob hb
    | some ob2 =>
      cases ho : oracle t with
      | none =>
        intro hs
        cases hs
      | some d =>
        dsimp only
        intro hs hu ob hb
        by_cases hut : u = t
        · subst hut
          have hob : ob2 = ob := by
            rw [hbt] at hb
            cases hb
            rfl
          subst hob
          by_cases hur : u ∈ rest
          · have hb2 : ((Tracks.set tr u { tr.get u with processedBuffer := some { numberOfChannels := ob2.numberOfChannels, length := ob2.length, sampleRate := ob2.sampleRate, data := d } }).get u).buffer = some ob2 := by
              rw [Tracks.get_set_same]
              exact hbt
            exact ih _ _ hs hur ob2 hb2
          · rw [processLoop_not_mem _ _ _ _ _ _ _ hur, Tracks.get_set_same]
            exact ⟨rfl, rfl, rfl⟩
        · have hur : u ∈ rest := by
            cases List.mem_cons.mp hu with
            | inl h => exact absurd h hut
            | inr h => exact h
          have hb2 : ((Tracks.set tr t { tr.get t with processedBuffer := some { numberOfChannels := ob2.numberOfChannels, length := ob2.length, sampleRate := ob2.sampleRate, data := d } }).get u).buffer = some ob := by
            rw [Tracks.get_set_ne _ _ hut]
            exact hb
          exact ih _ _ hs hur ob hb2

theorem processLoop_log (oracle : RenderOracle) (tmp : ℚ) (ps : ℤ)
    (l : List TrackName) (tr : Tracks) (log : List EngineInvocation) :
    ∀ inv ∈ (processLoop oracle tmp ps l tr log).2.1,
      inv ∈ log ∨ (inv.tempo = tmp ∧ inv.pitchBase = 2 ∧ inv.pitchExp = (ps : ℚ) / 12) := by
  induction l generalizing tr log with
  | nil =>
    intro inv h
    exact Or.inl h
  | cons t rest ih =>
    rw [processLoop]
    cases hbt : (tr.get t).buffer with
    | none => exact ih tr log
    | some ob =>
      cases ho : oracle t with
      | none =>
        intro inv h
        cases List.mem_append.mp h with
        | inl hl => exact Or.inl hl
        | inr hr =>
          cases List.mem_singleton.mp hr
          exact Or.inr ⟨rfl, rfl, rfl⟩
      | some d =>
        dsimp only
        intro inv h
        cases ih _ _ inv h with
        | inr hp => exact Or.inr hp
        | inl hl =>
          cases List.mem_append.mp hl with
          | inl hll => exact Or.inl hll
          | inr hr =>
            cases List.mem_singleton.mp hr
            exact Or.inr ⟨rfl, rfl, rfl⟩

/-! Lemmas about the whole render pass. -/

theorem processAllTracks_tracks (oracle : RenderOracle) (s : AppState) :
    (processAllTracks oracle s).1.tracks =
      (processLoop oracle (s.bpm / s.baseBpm) s.pitchSemitones stemOrder s.tracks []).1 := by
  unfold processAllTracks
  dsimp only
  split <;> rfl

theorem processAllTracks_engineLog (oracle : RenderOracle) (s : AppState) :
    (processAllTracks oracle s).1.engineLog =
      s.engineLog ++
        (processLoop oracle (s.bpm / s.baseBpm) s.pitchSemitones stemOrder s.tracks []).2.1 := by
  unfold processAllTracks
  dsimp only
  split <;> rfl

theorem processAllTracks_flag (oracle : RenderOracle) (s : AppState) :
    (processAllTracks oracle s).2 =
      (processLoop oracle (s.bpm / s.baseBpm) s.pitchSemitones stemOrder s.tracks []).2.2 := by
  unfold processAllTracks
  dsimp only
  split <;> simp_all

theorem processAllTracks_fields (oracle : RenderOracle) (s : AppState) :
    (processAllTracks oracle s).1.bpm = s.bpm ∧
    (processAllTracks oracle s).1.baseBpm = s.baseBpm ∧
    (processAllTracks oracle s).1.pitchSemitones = s.pitchSemitones ∧
    (processAllTracks oracle s).1.isPlaying = s.isPlaying ∧
    (processAllTracks oracle s).1.handles = s.handles ∧
    (processAllTracks oracle s).1.sources = s.sources ∧
    (processAllTracks oracle s).1.selectedSong = s.selectedSong ∧
    (processAllTracks oracle s).1.isLoading = s.isLoading ∧
    (processAllTracks oracle s).1.passCount = s.passCount + 1 := by
  unfold processAllTracks
  dsimp only
  split <;> exact ⟨rfl, rfl, rfl, rfl, rfl, rfl, rfl, rfl, rfl⟩

theorem processAllTracks_last_success (oracle : RenderOracle) (s : AppState)
    (h : (processAllTracks oracle s).2 = true) :
    (processAllTracks oracle s).1.lastProcessedBpm = some s.bpm ∧
    (processAllTracks oracle s).1.lastProcessedPitch = s.pitchSemitones ∧
    (processAllTracks oracle s).1.isProcessing = false := by
  rw [processAllTracks_flag] at h
  unfold processAllTracks
  dsimp only
  simp [h]

theorem processAllTracks_last_failure (oracle : RenderOracle) (s : AppState)
    (h : (processAllTracks oracle s).2 = false) :
    (processAllTracks oracle s).1.lastProcessedBpm = s.lastProcessedBpm ∧
    (processAllTracks oracle s).1.lastProcessedPitch = s.lastProcessedPitch ∧
    (processAllTracks oracle s).1.isProcessing = true := by
  rw [processAllTracks_flag] at h
  unfold processAllTracks
  dsimp only
  simp [h]

theorem processAllTracks_success_of_oracle (oracle : RenderOracle) (s : AppState)
    (h : ∀ t, (oracle t).isSome = true) :
    (processAllTracks oracle s).2 = true := by
  rw [processAllTracks_flag]
  exact processLoop_success_of_oracle _ _ _ _ _ _ h

theorem needsProcessing_after_success (oracle : RenderOracle) (s : AppState)
    (h : (processAllTracks oracle s).2 = true) :
    needsProcessing (processAllTracks oracle s).1 = false := by
  have hl := processAllTracks_last_success oracle s h
  have hf := processAllTracks_fields oracle s
  simp [needsProcessing, hl.1, hl.2.1, hf.1, hf.2.2.1]

/-! Lemmas about playback scheduling and the session invariant. -/

theorem mkHandles_mem (s : AppState) (now : ℚ) (l : List TrackName) (nid : Nat) :
    ∀ h ∈ mkHandles s now l nid,
      h.startTime = now ∧ h.sessionId = s.nextSession ∧ h.stopped = false := by
  induction l generalizing nid with
  | nil =>
    intro h hm
    cases hm
  | cons t rest ih =>
    rw [mkHandles]
    cases hp : (s.tracks.get t).processedBuffer with
    | none => exact ih nid
    | some pb =>
      intro h hm
      cases List.mem_cons.mp hm with
      | inl he =>
        subst he
        exact ⟨rfl, rfl, rfl⟩
      | inr hr => exact ih (nid + 1) h hr

theorem mkHandles_tracks (s : AppState) (now : ℚ) (l : List TrackName) (nid : Nat) :
    (mkHandles s now l nid).map Handle.track
      = l.filter fun t => ((s.tracks.get t).processedBuffer).isSome := by
  induction l generalizing nid with
  | nil => rfl
  | cons t rest ih =>
    rw [mkHandles]
    cases hp : (s.tracks.get t).processedBuffer with
    | none => simp [List.filter_cons, hp, ih nid]
    | some pb => simp [List.filter_cons, hp, ih (nid + 1)]

theorem handlePlay_playing (clock : Clock) (s : AppState) (h : s.isPlaying = true) :
    handlePlay clock s = s := by
  unfold handlePlay
  simp [h]

theorem handlePlay_not_playing (clock : Clock) (s : AppState) (h : s.isPlaying = false) :
    handlePlay clock s =
      { s with
        handles := s.handles ++ mkHandles s (clock s.clockReads) stemOrder s.nextHid
        sources := (mkHandles s (clock s.clockReads) stemOrder s.nextHid).map Handle.hid
        isPlaying := true
        nextSession := s.nextSession + 1
        nextHid := s.nextHid + (mkHandles s (clock s.clockReads) stemOrder s.nextHid).length
        clockReads := s.clockReads + 1 } := by
  unfold handlePlay
  simp [h]

theorem handleStop_stops (s : AppState)
    (hB : ∀ h ∈ s.handles, h.stopped = false → h.hid ∈ s.sources) :
    ∀ h ∈ (handleStop s).handles, h.stopped = true := by
  intro h hm
  simp only [handleStop] at hm
  obtain ⟨h0, hh0, hfe⟩ := List.mem_map.mp hm
  by_cases hin : h0.hid ∈ s.sources
  · rw [if_pos hin] at hfe
    rw [← hfe]
  · rw [if_neg hin] at hfe
    rw [← hfe]
    cases hst : h0.stopped with
    | true => rfl
    | false => exact absurd (hB h0 hh0 hst) hin

theorem sessionInv_untouched {s s2 : AppState} (hh : s2.handles = s.handles)
    (hs : s2.sources = s.sources) (hp : s2.isPlaying = s.isPlaying)
    (h : SessionInv s) : SessionInv s2 := by
  obtain ⟨hA, hB, hC⟩ := h
  refine ⟨?_, ?_, ?_⟩
  · intro hpl
    rw [hh]
    exact hA (hp ▸ hpl)
  · intro h2 hm hst
    rw [hs]
    exact hB h2 (hh ▸ hm) hst
  · intro h1 hm1 h2 hm2 hs1 hs2
    exact hC h1 (hh ▸ hm1) h2 (hh ▸ hm2) hs1 hs2

theorem sessionInv_stop (s : AppState) (h : SessionInv s) : SessionInv (handleStop s) := by
  have hall := handleStop_stops s h.2.1
  refine ⟨fun _ => hall, ?_, ?_⟩
  · intro h2 hm hst
    rw [hall h2 hm] at hst
    cases hst
  · intro h1 hm1 h2 hm2 hs1 hs2
    rw [hall h1 hm1] at hs1
    cases hs1

theorem sessionInv_play (clock : Clock) (s : AppState) (h : SessionInv s) :
    SessionInv (handlePlay clock s) := by
  cases hpl : s.isPlaying with
  | true =>
    rw [handlePlay_playing clock s hpl]
    exact h
  | false =>
    rw [handlePlay_not_playing clock s hpl]
    obtain ⟨hA, hB, hC⟩ := h
    have hold : ∀ h2 ∈ s.handles, h2.stopped = true := hA hpl
    have hmk := mkHandles_mem s (clock s.clockReads) stemOrder s.nextHid
    refine ⟨?_, ?_, ?_⟩
    · intro hfalse
      simp at hfalse
    · intro h2 hm hst
      cases List.mem_append.mp hm with
      | inl hl =>
        rw [hold h2 hl] at hst
        cases hst
      | inr hr => exact List.mem_map_of_mem Handle.hid hr
    · intro h1 hm1 h2 hm2 hs1 hs2
      cases List.mem_append.mp hm1 with
      | inl hl =>
        rw [hold h1 hl] at hs1
        cases hs1
      | inr hr1 =>
        cases List.mem_append.mp hm2 with
        | inl hl =>
          rw [hold h2 hl] at hs2
          cases hs2
        | inr hr2 =>
          rw [(hmk h1 hr1).2.1, (hmk h2 hr2).2.1]

theorem sessionInv_process (oracle : RenderOracle) (s : AppState) (h : SessionInv s) :
    SessionInv (processAllTracks oracle s).1 := by
  have hf := processAllTracks_fields oracle s
  exact sessionInv_untouched hf.2.2.2.2.1 hf.2.2.2.2.2.1 hf.2.2.2.1 h

theorem sessionInv_toggle (t : TrackName) (s : AppState) (h : SessionInv s) :
    SessionInv (toggleMute t s) := by
  unfold toggleMute
  cases hpl : s.isPlaying with
  | true =>
    simp only [hpl, if_true]
    exact sessionInv_untouched rfl rfl rfl (sessionInv_stop s h)
  | false =>
    simp only [hpl, if_false]
    exact sessionInv_untouched rfl rfl rfl h

theorem sessionInv_click (oracle : RenderOracle) (clock : Clock) (s : AppState)
    (h : SessionInv s) : SessionInv (handlePlayClick oracle clock s) := by
  unfold handlePlayClick
  have hmid : SessionInv (dirtyGuardedRender oracle s).1 := by
    unfold dirtyGuardedRender
    split
    · exact sessionInv_process oracle s h
    · exact h
  split
  · exact sessionInv_stop s h
  · dsimp only
    split
    · exact sessionInv_play clock _ hmid
    · exact hmid

theorem sessionInv_load (song : Song) (dec : DecodeOracle) (s : AppState)
    (h : SessionInv s) : SessionInv (loadBuffers song dec s) := by
  exact sessionInv_untouched rfl rfl rfl h

theorem sessionInv_select (song : Song) (dec : DecodeOracle) (clock : Clock)
    (s : AppState) (h : SessionInv s) : SessionInv (selectSongStep song dec clock s) := by
  unfold selectSongStep loadAndAutoplay
  exact sessionInv_play clock _ (sessionInv_load song dec _ (sessionInv_untouched rfl rfl rfl h))

theorem sessionInv_bpmSlider (v : ℚ) (s : AppState) (h : SessionInv s) :
    SessionInv (setBpmSlider v s) := by
  unfold setBpmSlider
  cases hpl : s.isPlaying with
  | true =>
    simp only [hpl, if_true]
    exact sessionInv_untouched rfl rfl rfl (sessionInv_stop s h)
  | false =>
    simp only [hpl, if_false]
    exact sessionInv_untouched rfl rfl rfl h

theorem sessionInv_pitchSlider (v : ℤ) (s : AppState) (h : SessionInv s) :
    SessionInv (setPitchSlider v s) := by
  unfold setPitchSlider
  cases hpl : s.isPlaying with
  | true =>
    simp only [hpl, if_true]
    exact sessionInv_untouched rfl rfl rfl (sessionInv_stop s h)
  | false =>
    simp only [hpl, if_false]
    exact sessionInv_untouched rfl rfl rfl h

theorem sessionInv_step {s s2 : AppState} (hstep : Step s s2) (h : SessionInv s) :
    SessionInv s2 := by
  cases hstep with
  | playClick oracle clock s _ _ => exact sessionInv_click oracle clock s h
  | mute t s _ _ => exact sessionInv_toggle t s h
  | select song dec clock s _ _ => exact sessionInv_select song dec clock s h
  | bpmSlider v s _ _ => exact sessionInv_bpmSlider v s h
  | pitchSlider v s _ _ => exact sessionInv_pitchSlider v s h

theorem reachable_sessionInv (s : AppState) (h : Reachable s) : SessionInv s := by
  unfold Reachable at h
  induction h with
  | refl =>
    refine ⟨?_, ?_, ?_⟩
    · intro _ h2 hm
      simp [initialState] at hm
    · intro h2 hm
      simp [initialState] at hm
    · intro h1 hm1
      simp [initialState] at hm1
  | tail _ hstep ih => exact sessionInv_step hstep ih

/-! Further shared helper lemmas. -/

theorem handlePlay_passCount (clock : Clock) (s : AppState) :
    (handlePlay clock s).passCount = s.passCount ∧
    (handlePlay clock s).engineLog = s.engineLog ∧
    (handlePlay clock s).tracks = s.tracks := by
  unfold handlePlay
  split
  · exact ⟨rfl, rfl, rfl⟩
  · exact ⟨rfl, rfl, rfl⟩

theorem dirtyGuardedRender_clean (oracle : RenderOracle) (s : AppState)
    (h : needsProcessing s = false) : dirtyGuardedRender oracle s = (s, true) := by
  unfold dirtyGuardedRender
  rw [h]
  rfl

theorem toggleMute_preserves (t : TrackName) (s : AppState) :
    (∀ u, ((toggleMute t s).tracks.get u).buffer = (s.tracks.get u).buffer ∧
          ((toggleMute t s).tracks.get u).processedBuffer = (s.tracks.get u).processedBuffer) ∧
    (toggleMute t s).engineLog = s.engineLog ∧
    (toggleMute t s).passCount = s.passCount ∧
    ((toggleMute t s).tracks.get t).muted = !(s.tracks.get t).muted := by
  unfold toggleMute
  cases hpl : s.isPlaying with
  | true =>
    simp only [hpl, if_true]
    refine ⟨?_, rfl, rfl, ?_⟩
    · intro u
      by_cases hu : u = t
      · subst hu
        rw [Tracks.get_set_same]
        exact ⟨rfl, rfl⟩
      · rw [Tracks.get_set_ne _ _ hu]
        exact ⟨rfl, rfl⟩
    · rw [Tracks.get_set_same]
      exact rfl
  | false =>
    simp only [hpl, if_false]
    refine ⟨?_, rfl, rfl, ?_⟩
    · intro u
      by_cases hu : u = t
      · subst hu
        rw [Tracks.get_set_same]
        exact ⟨rfl, rfl⟩
      · rw [Tracks.get_set_ne _ _ hu]
        exact ⟨rfl, rfl⟩
    · rw [Tracks.get_set_same]
      exact rfl

theorem click_passCount (oracle : RenderOracle) (clock : Clock) (s : AppState)
    (hp : s.isPlaying = false) :
    (handlePlayClick oracle clock s).passCount =
      if needsProcessing s then s.passCount + 1 else s.passCount := by
  unfold handlePlayClick
  rw [hp]
  simp only [Bool.false_eq_true, if_false]
  cases hnp : needsProcessing s with
  | false =>
    rw [dirtyGuardedRender_clean oracle s hnp]
    simp [(handlePlay_passCount clock s).1]
  | true =>
    have hdef : dirtyGuardedRender oracle s = processAllTracks oracle s := by
      unfold dirtyGuardedRender
      rw [hnp]
      rfl
    rw [hdef]
    split
    · rw [(handlePlay_passCount clock _).1]
      simp [(processAllTracks_fields oracle s).2.2.2.2.2.2.2.2]
    · simp [(processAllTracks_fields oracle s).2.2.2.2.2.2.2.2]

/-! Claim theorems. -/

/-- C3: the dirty check `needsProcessing` returns `true` exactly when the
last applied tempo value is unset, differs from the requested tempo, or the
last applied pitch differs from the requested pitch (the spec's
`specDirty`); it is a pure function of the state (a plain `def` with no
effects in this embedding); and a play request issued while not playing
invokes the render pass (`passCount` grows by one) exactly when the check
returns `true`. -/
theorem dirty_check_iff_and_triggers (oracle : RenderOracle) (clock : Clock)
    (s : AppState) (hp : s.isPlaying = false) :
    (needsProcessing s = true ↔ specDirty s) ∧
    ((handlePlayClick oracle clock s).passCount = s.passCount + 1 ↔
      needsProcessing s = true) := by
  constructor
  · unfold needsProcessing specDirty
    simp only [Bool.or_eq_true, decide_eq_true_eq]
    constructor
    · rintro ((h | h) | h)
      · exact Or.inl h
      · exact Or.inr (Or.inl h)
      · exact Or.inr (Or.inr fun he => h he.symm)
    · rintro (h | h | h)
      · exact Or.inl (Or.inl h)
      · exact Or.inl (Or.inr h)
      · exact Or.inr fun he => h he.symm
  · rw [click_passCount oracle clock s hp]
    cases hnp : needsProcessing s with
    | true => simp
    | false => simp

/-- C6: running the dirty-checked render pass twice in a row with unchanged
requested tempo and pitch performs the engine work only once: provided the
engine succeeds, the first `dirtyGuardedRender` completes, leaves the dirty
check `false`, and the second call returns its input state unchanged (in
particular no new engine invocation, no `passCount` increment). -/
theorem render_pass_idempotent (oracle : RenderOracle) (s : AppState)
    (hsucc : ∀ t, (oracle t).isSome = true) :
    (dirtyGuardedRender oracle s).2 = true ∧
    needsProcessing (dirtyGuardedRender oracle s).1 = false ∧
    dirtyGuardedRender oracle (dirtyGuardedRender oracle s).1 =
      ((dirtyGuardedRender oracle s).1, true) := by
  have hclean : needsProcessing (dirtyGuardedRender oracle s).1 = false := by
    unfold dirtyGuardedRender
    split
    case isTrue h =>
      exact needsProcessing_after_success oracle s
        (processAllTracks_success_of_oracle oracle s hsucc)
    case isFalse h =>
      dsimp only
      cases hnp : needsProcessing s with
      | false => rfl
      | true => exact absurd hnp h
  refine ⟨?_, hclean, dirtyGuardedRender_clean oracle _ hclean⟩
  unfold dirtyGuardedRender
  split
  · exact processAllTracks_success_of_oracle oracle s hsucc
  · rfl

/-- C4: starting playback never yields two live sessions: in every state
reachable from the freshly mounted component, any two not-yet-stopped
source nodes belong to the same playback session (`handlePlay` refuses to
start while a session is flagged live, and every path that clears the flag
first stops every node of the current session). -/
theorem no_two_live_sessions (s : AppState) (h : Reachable s) :
    noTwoSessionsLive s :=
  (reachable_sessionInv s h).2.2

/-- C4 witness: after selecting a song from the initial state (whose load
auto-plays all four stems), the bass and drums nodes are live and share one
session id. -/
theorem no_two_live_sessions_witness :
    Reachable stAfterSelect ∧
    hSel0 ∈ stAfterSelect.handles ∧ hSel1 ∈ stAfterSelect.handles ∧
    hSel0.stopped = false ∧ hSel1.stopped = false ∧
    hSel0.sessionId = hSel1.sessionId := by
  have hreach : Reachable stAfterSelect :=
    Relation.ReflTransGen.single (Step.select songB decTiny clk0 initialState rfl rfl)
  exact ⟨hreach, by decide, by decide, rfl, rfl,
    no_two_live_sessions stAfterSelect hreach hSel0 (by decide) hSel1 (by decide) rfl rfl⟩

/-- C5: within one playback start from a non-playing state, every created
source node is scheduled at the single clock value read once before the
per-stem loop (the same value for all stems, for every behaviour of the
clock), the scheduled stems are exactly those with a non-null processed
buffer, and the clock is read exactly once. -/
theorem shared_start_timestamp (clock : Clock) (s : AppState)
    (hp : s.isPlaying = false) :
    (∀ h ∈ (handlePlay clock s).handles.drop s.handles.length,
        h.startTime = clock s.clockReads) ∧
    ((handlePlay clock s).handles.drop s.handles.length).map Handle.track
        = stemOrder.filter (fun t => ((s.tracks.get t).processedBuffer).isSome) ∧
    (handlePlay clock s).clockReads = s.clockReads + 1 := by
  rw [handlePlay_not_playing clock s hp]
  dsimp only
  rw [List.drop_left]
  exact ⟨fun h hm => (mkHandles_mem _ _ _ _ h hm).1, mkHandles_tracks _ _ _ _, rfl⟩

/-- C3 witness: at the concrete dirty, not-playing state `csC3` the check
returns `true`, the spec disjunction holds, and the play click performs the
render pass. -/
theorem dirty_check_iff_and_triggers_witness :
    csC3.isPlaying = false ∧ specDirty csC3 ∧ needsProcessing csC3 = true ∧
    (handlePlayClick oracleOk clk0 csC3).passCount = csC3.passCount + 1 := by
  refine ⟨rfl, ?_, by decide, ?_⟩
  · exact (dirty_check_iff_and_triggers oracleOk clk0 csC3 rfl).1.mp (by decide)
  · exact (dirty_check_iff_and_triggers oracleOk clk0 csC3 rfl).2.mpr (by decide)

/-- C6 witness: at the dirty state `csC3` with an always-succeeding engine,
the second dirty-checked render pass is a no-op. -/
theorem render_pass_idempotent_witness :
    (oracleOk TrackName.bass).isSome = true ∧
    needsProcessing (dirtyGuardedRender oracleOk csC3).1 = false ∧
    dirtyGuardedRender oracleOk (dirtyGuardedRender oracleOk csC3).1 =
      ((dirtyGuardedRender oracleOk csC3).1, true) := by
  have hs : ∀ t, (oracleOk t).isSome = true := fun t => by cases t <;> rfl
  exact ⟨rfl, (render_pass_idempotent oracleOk csC3 hs).2.1,
    (render_pass_idempotent oracleOk csC3 hs).2.2⟩

/-- C5 witness: at `csC5` (bass and other loaded) with the advancing clock
`clkTick`, both created nodes carry the single captured timestamp. -/
theorem shared_start_timestamp_witness :
    csC5.isPlaying = false ∧
    hPl0 ∈ (handlePlay clkTick csC5).handles.drop csC5.handles.length ∧
    hPl1 ∈ (handlePlay clkTick csC5).handles.drop csC5.handles.length ∧
    hPl0.startTime = clkTick csC5.clockReads ∧
    hPl1.startTime = clkTick csC5.clockReads ∧
    (handlePlay clkTick csC5).clockReads = csC5.clockReads + 1 := by
  refine ⟨rfl, by decide, by decide, ?_, ?_, ?_⟩
  · exact (shared_start_timestamp clkTick csC5 rfl).1 hPl0 (by decide)
  · exact (shared_start_timestamp clkTick csC5 rfl).1 hPl1 (by decide)
  · exact (shared_start_timestamp clkTick csC5 rfl).2.2

/-- C8: any sequence of mute toggles leaves every stem's original and
playable buffers untouched, appends nothing to the engine invocation log,
and does not invoke the render pass. -/
theorem mute_toggles_never_render (ts : List TrackName) (s : AppState) :
    (∀ u, ((ts.foldl (fun a t => toggleMute t a) s).tracks.get u).buffer
            = (s.tracks.get u).buffer ∧
          ((ts.foldl (fun a t => toggleMute t a) s).tracks.get u).processedBuffer
            = (s.tracks.get u).processedBuffer) ∧
    (ts.foldl (fun a t => toggleMute t a) s).engineLog = s.engineLog ∧
    (ts.foldl (fun a t => toggleMute t a) s).passCount = s.passCount := by
  induction ts generalizing s with
  | nil => exact ⟨fun u => ⟨rfl, rfl⟩, rfl, rfl⟩
  | cons t rest ih =>
    rw [List.foldl_cons]
    have h1 := toggleMute_preserves t s
    have h2 := ih (toggleMute t s)
    refine ⟨fun u => ⟨?_, ?_⟩, ?_, ?_⟩
    · rw [(h2.1 u).1, (h1.1 u).1]
    · rw [(h2.1 u).2, (h1.1 u).2]
    · rw [h2.2.1, h1.2.1]
    · rw [h2.2.2, h1.2.2.1]

/-- C1 counterexample: at `csC1` the drums render fails after the bass
render succeeded; the pass fails, yet the bass stem's playable buffer has
already been replaced through the shallow-copied (aliased) track object, so
the pass is not atomic as claimed. -/
theorem render_pass_not_atomic : ¬ specAtomicPass oracleBassOnly csC1 := by
  intro h
  exact absurd ((h (by decide)).1 TrackName.bass) (by decide)

/-- C1 (amended): the processing state is transactional — on a failed pass
`lastProcessedBpm` and `lastProcessedPitch` keep their pre-pass values, and
they are updated to the requested values exactly when every invoked render
succeeded — but the playable buffers themselves are not rolled back: stems
rendered before the failure keep their newly installed buffers (shallow-copy
aliasing), as the counterexample shows. -/
theorem render_pass_processing_state (oracle : RenderOracle) (s : AppState) :
    ((processAllTracks oracle s).2 = false →
      (processAllTracks oracle s).1.lastProcessedBpm = s.lastProcessedBpm ∧
      (processAllTracks oracle s).1.lastProcessedPitch = s.lastProcessedPitch) ∧
    ((processAllTracks oracle s).2 = true →
      (processAllTracks oracle s).1.lastProcessedBpm = some s.bpm ∧
      (processAllTracks oracle s).1.lastProcessedPitch = s.pitchSemitones) :=
  ⟨fun h => ⟨(processAllTracks_last_failure oracle s h).1,
             (processAllTracks_last_failure oracle s h).2.1⟩,
   fun h => ⟨(processAllTracks_last_success oracle s h).1,
             (processAllTracks_last_success oracle s h).2.1⟩⟩

/-- C1 witness: the failing pass at `csC1` leaves the processing state at
its pre-pass values. -/
theorem render_pass_processing_state_witness :
    (processAllTracks oracleBassOnly csC1).2 = false ∧
    (processAllTracks oracleBassOnly csC1).1.lastProcessedBpm = csC1.lastProcessedBpm ∧
    (processAllTracks oracleBassOnly csC1).1.lastProcessedPitch = csC1.lastProcessedPitch :=
  ⟨by decide,
   ((render_pass_processing_state oracleBassOnly csC1).1 (by decide)).1,
   ((render_pass_processing_state oracleBassOnly csC1).1 (by decide)).2⟩

/-- C2 counterexample: at `csC2` the requested tempo ratio is 2, the bass
original has 1000 frames, and the rendered buffer still has 1000 frames —
not within one unit of 1000/2 and not different from the original — because
the offline context is created with the original buffer's length. -/
theorem render_duration_does_not_scale : ¬ specDurationScaling oracleOk csC2 := by
  intro h
  exact absurd (h TrackName.bass bufSmall pbC2 (by decide) (by decide)).1.2
    (by norm_num [pbC2, bufSmall, csC2, initialState])

/-- C2 (amended): for every loaded stem of a successful pass, the rendered
playable buffer has exactly the original's frame count, channel count and
sample rate (the offline render context is sized to the original), so the
frame count does not scale with the tempo ratio. -/
theorem render_keeps_frame_count (oracle : RenderOracle) (s : AppState)
    (t : TrackName) (ob : AudioBuffer) (hb : (s.tracks.get t).buffer = some ob)
    (hs : (processAllTracks oracle s).2 = true) :
    ((processAllTracks oracle s).1.tracks.get t).processedBuffer.map AudioBuffer.length
        = some ob.length ∧
    ((processAllTracks oracle s).1.tracks.get t).processedBuffer.map AudioBuffer.numberOfChannels
        = some ob.numberOfChannels ∧
    ((processAllTracks oracle s).1.tracks.get t).processedBuffer.map AudioBuffer.sampleRate
        = some ob.sampleRate := by
  rw [processAllTracks_flag] at hs
  rw [processAllTracks_tracks]
  refine processLoop_dims _ _ _ stemOrder s.tracks [] t hs ?_ ob hb
  cases t <;> decide

/-- C2 witness: the successful pass at `csC2` keeps the bass frame count at
1000 (the original's), with channels and sample rate preserved. -/
theorem render_keeps_frame_count_witness :
    (csC2.tracks.get TrackName.bass).buffer = some bufSmall ∧
    (processAllTracks oracleOk csC2).2 = true ∧
    ((processAllTracks oracleOk csC2).1.tracks.get TrackName.bass).processedBuffer.map
        AudioBuffer.length = some bufSmall.length :=
  ⟨by decide, by decide,
   (render_keeps_frame_count oracleOk csC2 TrackName.bass bufSmall (by decide) (by decide)).1⟩

/-- C7 counterexample: at the playing state `csPlaying`, the latest
prototype's `toggleMute` does touch the active session — it stops it (the
playing flag drops and the live node is stopped), so the live session's
handles are not left running unchanged. -/
theorem toggleMute_touches_live_session :
    ¬ specMuteLeavesSession TrackName.bass csPlaying := by
  unfold specMuteLeavesSession
  decide

/-- C7 (amended): `toggleMute` flips only the requested stem's flag and
never touches buffers or the engine; in the latest prototype, if a session
is playing it first stops it (`handleStop`), so the live session's handles
do not keep running and the new mute state becomes audible on the next
start; only the earlier prototype's `toggleMute` (`legacyToggleMute`)
leaves a live session untouched. -/
theorem toggleMute_stops_then_flips (t : TrackName) (s : AppState) :
    ((toggleMute t s).tracks.get t).muted = !(s.tracks.get t).muted ∧
    (∀ u, ((toggleMute t s).tracks.get u).buffer = (s.tracks.get u).buffer ∧
          ((toggleMute t s).tracks.get u).processedBuffer = (s.tracks.get u).processedBuffer) ∧
    (toggleMute t s).engineLog = s.engineLog ∧
    (toggleMute t s).passCount = s.passCount ∧
    (s.isPlaying = false →
      (toggleMute t s).handles = s.handles ∧ (toggleMute t s).sources = s.sources ∧
      (toggleMute t s).isPlaying = false) ∧
    (s.isPlaying = true →
      (toggleMute t s).isPlaying = false ∧ (toggleMute t s).sources = [] ∧
      (toggleMute t s).handles = (handleStop s).handles) ∧
    ((legacyToggleMute t s).handles = s.handles ∧
     (legacyToggleMute t s).sources = s.sources ∧
     (legacyToggleMute t s).isPlaying = s.isPlaying ∧
     ((legacyToggleMute t s).tracks.get t).muted = !(s.tracks.get t).muted) := by
  have hpres := toggleMute_preserves t s
  refine ⟨hpres.2.2.2, hpres.1, hpres.2.1, hpres.2.2.1, ?_, ?_, rfl, rfl, rfl, ?_⟩
  · intro hp
    unfold toggleMute
    rw [hp]
    exact ⟨rfl, rfl, hp⟩
  · intro hp
    unfold toggleMute
    rw [hp]
    exact ⟨rfl, rfl, rfl⟩
  · unfold legacyToggleMute
    dsimp only
    rw [Tracks.get_set_same]

/-- C7 witness: at the playing state `csPlaying`, toggling the bass mute
drops the playing flag, empties the sources array, and stops the session's
node while flipping the flag. -/
theorem toggleMute_stops_then_flips_witness :
    csPlaying.isPlaying = true ∧
    ((toggleMute TrackName.bass csPlaying).tracks.get TrackName.bass).muted
      = !(csPlaying.tracks.get TrackName.bass).muted ∧
    (toggleMute TrackName.bass csPlaying).isPlaying = false ∧
    (toggleMute TrackName.bass csPlaying).sources = [] ∧
    (toggleMute TrackName.bass csPlaying).handles = (handleStop csPlaying).handles :=
  ⟨rfl, (toggleMute_stops_then_flips TrackName.bass csPlaying).1,
   ((toggleMute_stops_then_flips TrackName.bass csPlaying).2.2.2.2.2.1 rfl).1,
   ((toggleMute_stops_then_flips TrackName.bass csPlaying).2.2.2.2.2.1 rfl).2.1,
   ((toggleMute_stops_then_flips TrackName.bass csPlaying).2.2.2.2.2.1 rfl).2.2⟩

/-- C9 counterexample: the earlier prototype's render pass at `csC9`
(selected song recorded at 120 BPM, requested 120 BPM) passes tempo ratio
120/95 — the hardcoded constant 95, not the song's own recorded tempo,
which would give ratio 1. -/
theorem legacy_tempo_not_from_song : ¬ specLegacyTempoFromSong oracleOk csC9 songA := by
  intro h
  have hmem : invC9L ∈
      (legacyProcessAllTracks oracleOk csC9).1.engineLog.drop csC9.engineLog.length :=
    List.Mem.head _
  have h2 := h rfl invC9L hmem
  have h3 : ((120 : ℚ) / 95) = (120 : ℚ) / 120 := h2
  norm_num at h3

/-- C9 (amended): in the latest prototype, whenever `baseBpm` carries the
selected song's recorded tempo (as the effect hook guarantees), every engine
invocation of a render pass receives tempo ratio `bpm / song.tempo` and the
`Math.pow` call `2 ^ (pitchSemitones / 12)`; the earlier prototype instead
divides by the hardcoded 95, as the counterexample shows. -/
theorem engine_ratios (oracle : RenderOracle) (s : AppState) (song : Song)
    (hsel : s.selectedSong = some song) (hbase : s.baseBpm = song.tempo)
    (inv : EngineInvocation)
    (hmem : inv ∈ (processAllTracks oracle s).1.engineLog.drop s.engineLog.length) :
    inv.tempo = s.bpm / song.tempo ∧ inv.pitchBase = 2 ∧
    inv.pitchExp = (s.pitchSemitones : ℚ) / 12 ∧
    inv.pitchValue = (2 : ℝ) ^ ((s.pitchSemitones : ℝ) / 12) := by
  rw [processAllTracks_engineLog, List.drop_left] at hmem
  have hlog := processLoop_log oracle (s.bpm / s.baseBpm) s.pitchSemitones
    stemOrder s.tracks [] inv hmem
  cases hlog with
  | inl h => cases h
  | inr h =>
    obtain ⟨ht, hb2, he⟩ := h
    refine ⟨by rw [ht, hbase], hb2, he, ?_⟩
    unfold EngineInvocation.pitchValue
    rw [hb2, he]
    push_cast
    rfl

/-- C9 witness: at `csC9W` (song recorded at 120, baseBpm 120, requested
150), the single engine invocation carries tempo ratio 150/120 and pitch
arguments (2, 0/12). -/
theorem engine_ratios_witness :
    csC9W.selectedSong = some songA ∧ csC9W.baseBpm = songA.tempo ∧
    invC9W ∈ (processAllTracks oracleOk csC9W).1.engineLog.drop csC9W.engineLog.length ∧
    invC9W.tempo = csC9W.bpm / songA.tempo ∧ invC9W.pitchBase = 2 ∧
    invC9W.pitchExp = (csC9W.pitchSemitones : ℚ) / 12 ∧
    invC9W.pitchValue = (2 : ℝ) ^ ((csC9W.pitchSemitones : ℝ) / 12) := by
  have hmem : invC9W ∈
      (processAllTracks oracleOk csC9W).1.engineLog.drop csC9W.engineLog.length :=
    List.Mem.head _
  have h := engine_ratios oracleOk csC9W songA rfl rfl invC9W hmem
  exact ⟨rfl, rfl, hmem, h.1, h.2.1, h.2.2.1, h.2.2.2⟩

/-- C10 counterexample: if a session is already playing when a load
finishes, the scheduled auto-play returns immediately (`handlePlay` guards
on the playing flag), so no playback session begins — the claim's "for
every successful load a playback session begins" fails at `csPlaying`. -/
theorem load_autoplay_no_session_when_playing :
    ¬ specLoadStartsSession songB decTiny clk0 csPlaying := by
  unfold specLoadStartsSession
  decide

/-- C10 (amended): a successful load installs every stem's decoded buffer,
seeds the processing state (`lastProcessedBpm := song.tempo`,
`lastProcessedPitch := 0`), and schedules `handlePlay`; provided no session
is already playing, that auto-play starts a session over all four stems at
once — if one is playing, the scheduled `handlePlay` is a no-op. -/
theorem load_autoplay (song : Song) (dec : DecodeOracle) (clock : Clock)
    (s : AppState) (hp : s.isPlaying = false) :
    (loadBuffers song dec s).lastProcessedBpm = some song.tempo ∧
    (loadBuffers song dec s).lastProcessedPitch = 0 ∧
    (loadAndAutoplay song dec clock s).isPlaying = true ∧
    (loadAndAutoplay song dec clock s).nextSession = s.nextSession + 1 ∧
    ((loadAndAutoplay song dec clock s).handles.drop s.handles.length).map Handle.track
      = stemOrder := by
  unfold loadAndAutoplay
  have hp2 : (loadBuffers song dec s).isPlaying = false := hp
  rw [handlePlay_not_playing _ _ hp2]
  refine ⟨rfl, rfl, rfl, rfl, ?_⟩
  show ((s.handles ++ mkHandles (loadBuffers song dec s) _ stemOrder _).drop
    s.handles.length).map Handle.track = stemOrder
  rw [List.drop_left, mkHandles_tracks]
  apply List.filter_eq_self.mpr
  intro t ht
  cases t <;> rfl

/-- C10 witness: loading from the initial (non-playing) state auto-starts a
playback session. -/
theorem load_autoplay_witness :
    initialState.isPlaying = false ∧
    (loadAndAutoplay songB decTiny clk0 initialState).isPlaying = true ∧
    (loadAndAutoplay songB decTiny clk0 initialState).nextSession
      = initialState.nextSession + 1 ∧
    ((loadAndAutoplay songB decTiny clk0 initialState).handles.drop
        initialState.handles.length).map Handle.track = stemOrder := by
  have h := load_autoplay songB decTiny clk0 initialState rfl
  exact ⟨rfl, h.2.2.1, h.2.2.2.1, h.2.2.2.2⟩
